import Mathlib

/-!
Verification of the argus diagnostics/logging library.

This development gives a shallow embedding of the core of the repository:

* `formatters.py` — `JSONFormatter.format` (record serialization with
  per-key dropping of non-serializable `extra_data` values and sentinel
  defaults for absent caller fields);
* `log_functions.py` — `max_logs`, `_cleanup_logs` (retention policy),
  `register_debug_function` and `run_debug_functions` (exit-time probes);
* the streaming structured sink `JSONFileHandler`.  The module
  `handlers.py` that defines it is not part of the sources here (only its
  tests and callers are), so that one component is modelled from the
  design document, as marked on its definitions.

Machine conventions: Python strings are Lean `String`s, ints are `Int`,
JSON documents are the inductive `Argus.Json` below with a textual
renderer `Argus.Json.render` mirroring `json.dumps(*, ensure_ascii=False)`
(numbers restricted to integers — no claim involves floats), and the file
system is a list of file names.  Fallible operations return `Except`.
-/

namespace Argus

/-- Json values, as produced by `json.dumps`-style serialization.  Object
fields keep insertion order, as Python dicts do. -/
inductive Json where
  | null : Json
  | bool (b : Bool) : Json
  | num (n : Int) : Json
  | str (s : String) : Json
  | arr (xs : List Json) : Json
  | obj (kvs : List (String × Json)) : Json
deriving Repr

/-- Escape of one character inside a JSON string literal, following
`json.dumps` with `ensure_ascii=False`: quote, backslash and the control
characters are escaped, everything else is kept verbatim. -/
def escChar (c : Char) : String :=
  if c = '"' then "\\\""
  else if c = '\\' then "\\\\"
  else if c = '\x08' then "\\b"
  else if c = '\x09' then "\\t"
  else if c = '\x0a' then "\\n"
  else if c = '\x0c' then "\\f"
  else if c = '\x0d' then "\\r"
  else if c.val < 32 then
    let lo := c.val.toNat % 16
    let hi := c.val.toNat / 16
    "\\u00" ++ String.singleton (Char.ofNat (if hi < 10 then 48 + hi else 87 + hi))
      ++ String.singleton (Char.ofNat (if lo < 10 then 48 + lo else 87 + lo))
  else String.singleton c

/-- Escape of a whole string for inclusion in a JSON document. -/
def escape (s : String) : String :=
  String.join (s.data.map escChar)

mutual

/-- Textual rendering of a `Json` value, mirroring
`json.dumps(v, ensure_ascii=False)` with its default separators
(`", "` between elements, `": "` after keys). -/
def Json.render : Json → String
  | .null => "null"
  | .bool b => cond b "true" "false"
  | .num n => toString n
  | .str s => "\"" ++ (escape s ++ "\"")
  | .arr xs => "[" ++ (Json.renderSeq true xs ++ "]")
  | .obj kvs => "\x7b" ++ (Json.renderPairs true kvs ++ "\x7d")

/-- Comma-separated rendering of array elements; the flag says whether the
next element is the first one (no separating comma before it). -/
def Json.renderSeq : Bool → List Json → String
  | _, [] => ""
  | first, x :: xs =>
    (cond first "" ", ") ++ (Json.render x ++ Json.renderSeq false xs)

/-- Comma-separated rendering of object fields. -/
def Json.renderPairs : Bool → List (String × Json) → String
  | _, [] => ""
  | first, (k, v) :: kvs =>
    (cond first "" ", ") ++ ("\"" ++ (escape k ++ ("\": " ++ (Json.render v ++ Json.renderPairs false kvs))))

end

/-- Comma-separated join of already-rendered fragments, with the same
first-element flag as `Json.renderSeq`.  This is the shape in which the
streaming sink accumulates its `logs` array and writes its `state`
array. -/
def joinComma : Bool → List String → String
  | _, [] => ""
  | first, s :: ss => (cond first "" ", ") ++ (s ++ joinComma false ss)

/-- Field lookup in a rendered-as-object `Json` value (first binding of the
key, as in a Python dict). -/
def entryLookup (j : Json) (k : String) : Option Json :=
  match j with
  | .obj kvs => kvs.lookup k
  | _ => none

/-- Lexicographic comparison of character lists by code point, the order
Python uses when sorting strings. -/
def lexLe : List Char → List Char → Bool
  | [], _ => true
  | _ :: _, [] => false
  | a :: as, b :: bs => if a < b then true else if a = b then lexLe as bs else false

/-- Order on file names used by `sorted(..., key=lambda d: d.name)`. -/
def strLe (a b : String) : Prop := lexLe a.data b.data = true

instance : DecidableRel strLe := fun _ _ => inferInstanceAs (Decidable (_ = true))

/-! ## JSONFormatter (`src/formatters.py`) -/

/-- Values handed to the logger inside `extra_data`.  A Python value either
is JSON-serializable — in which case `json.dumps` would produce the
serialization carried by `ser` — or it is not (`JSONFormatter._is_json_serializable`
returns `False`, e.g. for a lambda), which the constructor `unser` models. -/
inductive PyVal where
  | ser (j : Json) : PyVal
  | unser : PyVal
deriving Repr

/-- Test performed by `JSONFormatter._is_json_serializable`. -/
def PyVal.serOk : PyVal → Bool
  | .ser _ => true
  | .unser => false

/-- Log record as seen by `JSONFormatter.format`: the always-present
attributes, the three optional caller-attribution attributes (absent
attributes are `none`, matching `getattr(record, ..., default)`), and the
optional `extra_data` dict (`none` when the attribute is absent; the empty
list when it is an empty — hence falsy — dict). -/
structure PyRecord where
  created_iso : String
  levelname : String
  message : String
  caller_module : Option String
  caller_func : Option String
  caller_lineno : Option Int
  name : String
  extra_data : Option (List (String × PyVal))
deriving Repr

/-- Filtering loop of `JSONFormatter.format`: keep only the
JSON-serializable values of `extra_data`, key order preserved. -/
def serFilter (kvs : List (String × PyVal)) : List (String × Json) :=
  kvs.filterMap fun kv =>
    match kv.2 with
    | .ser j => some (kv.1, j)
    | .unser => none

/-- Embedding of `JSONFormatter.format` (`src/formatters.py` lines 18-39)
up to the final `json.dumps`: builds the entry dict with `unknown`/0
defaults for absent caller attributes, then flattens the serializable part
of `extra_data` under an `extra_data` key only when at least one
serializable entry remains. -/
def formatEntry (r : PyRecord) : Json :=
  let base : List (String × Json) :=
    [("timestamp", .str r.created_iso),
     ("level", .str r.levelname),
     ("message", .str r.message),
     ("caller_module", .str (r.caller_module.getD "unknown")),
     ("caller_func", .str (r.caller_func.getD "unknown")),
     ("caller_lineno", .num (r.caller_lineno.getD 0)),
     ("logger", .str r.name)]
  match r.extra_data with
  | none => .obj base
  | some kvs =>
    let kept := serFilter kvs
    if kept.isEmpty then .obj base else .obj (base ++ [("extra_data", .obj kept)])

/-- Full `JSONFormatter.format`: the `json.dumps(log_entry, ensure_ascii=False)`
of the entry dict. -/
def formatRecord (r : PyRecord) : String :=
  Json.render (formatEntry r)

/-! ## JSONFileHandler (the streaming sink)

Modelled from the spec: the module `handlers.py` defining `JSONFileHandler`
is not among the sources (only `src/tests/test_handlers.py` and the callers
in `src/log_functions.py` are), so the sink is embedded from the design
document §4.1/§6 and the behaviour its tests pin down: opening writes the
literal prefix `{"logs": [`; each emitted record is written as the next
array element with a separating comma before every element except the
first; `state_entries` is a side list of already-serialized entries;
`close()` writes the closing of `logs`, the `state` array, the
`diagnostics_state` snapshot and the closing brace, and is idempotent. -/

/-- State of one `JSONFileHandler`: the bytes written so far, the count of
emitted records (the comma-before-every-element-but-first state), the side
list of serialized state entries, and whether `close()` already ran. -/
structure SinkState where
  content : String
  logsCount : Nat
  state_entries : List String
  closed : Bool
deriving Repr, DecidableEq

/-- Modelled from the spec: handler construction truncates the file and
writes the opening of the document, the literal `{"logs": [` asserted by
`test_handler_initialization`. -/
def openSink : SinkState :=
  { content := "\x7b" ++ ("\"logs\": " ++ "[")
    logsCount := 0
    state_entries := []
    closed := false }

/-- Modelled from the spec: `emit` writes the formatted record as the next
`logs` element, preceded by `", "` except for the first element; the file
is never appended to after `close()`. -/
def emitRecord (r : PyRecord) (st : SinkState) : SinkState :=
  if st.closed then st
  else
    { st with
      content := st.content ++ ((cond (st.logsCount == 0) "" ", ") ++ formatRecord r)
      logsCount := st.logsCount + 1 }

/-- Appending one serialized state entry to the in-memory side list
(`handler.state_entries.append(entry)`). -/
def appendStateEntry (e : String) (st : SinkState) : SinkState :=
  { st with state_entries := st.state_entries ++ [e] }

/-- Modelled from the spec: `close()` finalizes the document — closes the
`logs` array, writes the buffered `state` array in arrival order, the
`diagnostics_state` snapshot (captured at close time, passed here as the
already-built `diag` value) and the closing brace; a second `close()` is a
no-op. -/
def closeSink (diag : Json) (st : SinkState) : SinkState :=
  if st.closed then st
  else
    { st with
      content := st.content ++
        ("]" ++ (", " ++ ("\"state\": " ++ ("[" ++ (joinComma true st.state_entries ++
          ("]" ++ (", " ++ ("\"diagnostics_state\": " ++ (Json.render diag ++ "\x7d")))))))))
      closed := true }

/-- A whole session of record appends, in arrival order. -/
def emitAll (rs : List PyRecord) (st : SinkState) : SinkState :=
  rs.foldl (fun s r => emitRecord r s) st

/-- A sequence of `state_entries.append` calls, in arrival order. -/
def appendStates (es : List String) (st : SinkState) : SinkState :=
  es.foldl (fun s e => appendStateEntry e s) st

/-- Document shape of the finalized file (spec §6): one JSON object with
the `logs` array, the `state` array and the diagnostics snapshot. -/
def finalDoc (logs stateVals : List Json) (diag : Json) : Json :=
  .obj [("logs", .arr logs), ("state", .arr stateVals), ("diagnostics_state", diag)]

/-! ## Exit-time probes (`src/log_functions.py` lines 229-267) -/

/-- Return value of a probe call `func()`: either a plain string or a
mapping of string keys to JSON-serializable values (the two shapes
`run_debug_functions` handles). -/
inductive ProbeOutput where
  | str (s : String) : ProbeOutput
  | map (kvs : List (String × Json)) : ProbeOutput
deriving Repr

/-- One registered probe: the Python function attributes
`run_debug_functions` reads (`__name__` and `__qualname__`), the stored
`log_limit` and the value `func()` returns.  In this embedding the call is
pure, so the return value is part of the probe datum. -/
structure Probe where
  name : String
  qualname : String
  logLimit : Int
  output : ProbeOutput
deriving Repr

/-- Owner name computed by `run_debug_functions`: the part of
`func.__qualname__` before the first dot when the qualified name is
dotted, else `func.__name__`. -/
def objectName (p : Probe) : String :=
  if p.qualname.data.contains '.' then
    String.mk (p.qualname.data.takeWhile fun c => !(c = '.'))
  else p.name

/-- Python `dict.update` on insertion-ordered association lists: an
existing key keeps its position and gets the new value, a new key is
appended. -/
def dictUpdate (base upd : List (String × Json)) : List (String × Json) :=
  upd.foldl
    (fun acc kv =>
      if acc.any (fun p => p.1 == kv.1) then
        acc.map fun p => if p.1 == kv.1 then (p.1, kv.2) else p
      else acc ++ [kv])
    base

/-- Normalization of a probe result performed by the hook: a plain string
`output` is replaced by `{"message": output}`. -/
def outputDict : ProbeOutput → List (String × Json)
  | .str s => [("message", .str s)]
  | .map kvs => kvs

/-- State entry built for one probe:
`state_entry = {"object": object_name}; state_entry.update(output)`. -/
def stateEntryJson (p : Probe) : Json :=
  .obj (dictUpdate [("object", .str (objectName p))] (outputDict p.output))

/-- Serialized form appended to the handler:
`json.dumps(state_entry, ensure_ascii=False)`. -/
def entryString (p : Probe) : String :=
  Json.render (stateEntryJson p)

/-- Condition that a probe's returned mapping does not itself bind the
`object` key (`dict.update` would otherwise override the hook's value,
conflicts favouring the probe's own keys). -/
def outputLacksObjectKey (p : Probe) : Bool :=
  (outputDict p.output).all fun kv => !(kv.1 == "object")

/-- Property that a probe's state entry carries the `object` key bound to
the owner name the hook computed for it. -/
def entryObjectNamed (p : Probe) : Prop :=
  entryLookup (stateEntryJson p) "object" = some (.str (objectName p))

/-- Handler with `es` appended to its buffered state entries — the
accumulated effect of the hook's `state_entries.append` loop. -/
def withEntries (h : SinkState) (es : List String) : SinkState :=
  { h with state_entries := h.state_entries ++ es }

/-- Module state read by the exit hook: the `debug_functions` registry,
`logger.level`, the optional `_file_handler`, and the info-level messages
sent to the (excluded, per spec §1) leveled-logging layer. -/
structure HookState where
  debug_functions : List Probe
  logger_level : Int
  handler : Option SinkState
  infos : List String
deriving Repr

/-- Serialized state entries the hook produces: one per registered probe
whose `log_limit` does not exceed the logger level (the others are skipped
by the `log_limit > logger.level` check), in registration order. -/
def passingEntries (st : HookState) : List String :=
  (st.debug_functions.filter fun p => decide (p.logLimit ≤ st.logger_level)).map entryString

/-- Embedding of `register_debug_function` (`src/log_functions.py` lines
229-236): a negative `log_limit` is replaced by `logging.DEBUG` (10) and
the probe is appended to the registry. -/
def register_debug_function (name qualname : String) (output : ProbeOutput)
    (log_limit : Int) (st : HookState) : HookState :=
  let limit := if log_limit < 0 then 10 else log_limit
  { st with debug_functions := st.debug_functions ++ [⟨name, qualname, limit, output⟩] }

/-- Embedding of the `atexit` hook `run_debug_functions`
(`src/log_functions.py` lines 239-267): an empty registry returns at once
(in particular without closing the handler); otherwise every probe whose
`log_limit` does not exceed `logger.level` is run and its serialized state
entry appended to the handler when one is open, after which the handler is
closed.  The `diag` argument is the diagnostics snapshot the close writes. -/
def run_debug_functions (diag : Json) (st : HookState) : HookState :=
  if st.debug_functions.isEmpty then st
  else
    let st1 := { st with infos := st.infos ++ ["Running registered exit logging functions..."] }
    let st2 := st.debug_functions.foldl
      (fun acc p =>
        if p.logLimit > acc.logger_level then acc
        else
          match acc.handler with
          | some h => { acc with handler := some (appendStateEntry (entryString p) h) }
          | none => acc)
      st1
    match st2.handler with
    | some h => { st2 with handler := some (closeSink diag h) }
    | none => st2

/-! ## Retention (`src/log_functions.py` lines 196-226) -/

/-- Test `d.name.endswith(".log")` used when listing the log directory. -/
def isLogName (s : String) : Bool :=
  ".log".data.isSuffixOf s.data

/-- Directory entries that the cleanup considers: the file names ending in
`.log`. -/
def logFiles (fs : List String) : List String :=
  fs.filter isLogName

/-- Listing of `_cleanup_logs`: the `.log` entries sorted by file name
ascending. -/
def sortedLogFiles (fs : List String) : List String :=
  (logFiles fs).insertionSort strLe

/-- Embedding of `pathlib.Path.unlink` with its default `missing_ok=False`:
removing a name that is present succeeds, removing an absent one raises
`FileNotFoundError`. -/
def unlink (fs : List String) (name : String) : Except String (List String) :=
  if name ∈ fs then .ok (fs.erase name) else .error ("FileNotFoundError: " ++ name)

/-- Deletion loop of `_cleanup_logs`: unlink each excess file in order,
reporting each removal at info level; the first failing unlink propagates. -/
def unlinkAll (fs : List String) (names : List String) (infos : List String) :
    Except String (List String × List String) :=
  match names with
  | [] => .ok (fs, infos)
  | n :: rest =>
    match unlink fs n with
    | .ok fs1 => unlinkAll fs1 rest (infos ++ ["Removed old log file: " ++ n])
    | .error e => .error e

/-- Embedding of `_cleanup_logs` (`src/log_functions.py` lines 196-213).
`fs` is the directory content at listing time and `vanished` the names an
external actor removed between the listing and the deletion loop (so the
loop unlinks against `fs.diff vanished`); a run without a race is
`vanished = []`.  Returns the remaining directory content and the emitted
info messages. -/
def cleanup_logs_run (maxLogs : Int) (fs : List String) (vanished : List String) :
    Except String (List String × List String) :=
  if maxLogs < 1 then .ok (fs.diff vanished, [])
  else
    let log_files := sortedLogFiles fs
    let keep_count : Int := log_files.length - maxLogs
    if keep_count > 0 then
      unlinkAll (fs.diff vanished) (log_files.take keep_count.toNat) []
    else .ok (fs.diff vanished, [])

/-- Excess slice `log_files[:keep_count]` selected for deletion by
`_cleanup_logs`: the lexically first `count - maxLogs` of the sorted
`.log` names. -/
def excessOf (m : Int) (fs : List String) : List String :=
  (sortedLogFiles fs).take (((sortedLogFiles fs).length : Int) - m).toNat

/-- Module state touched by the retention setter: `_max_logs`, the log
directory content, and the info- and warning-level messages sent to the
excluded logging layer. -/
structure RetentionState where
  max_logs_setting : Int
  fs : List String
  infos : List String
  warnings : List String
deriving Repr, DecidableEq

/-- Embedding of `max_logs` (`src/log_functions.py` lines 216-226),
including its dead `val == 0` branch: `val < 1` — which subsumes `val == 0`
— disables retention by storing `-1` and returns; otherwise the value is
stored and `_cleanup_logs` runs. -/
def max_logs (val : Int) (st : RetentionState) : Except String RetentionState :=
  if val < 1 then .ok { st with max_logs_setting := -1 }
  else
    let valSt :=
      if val = 0 then
        (1, { st with warnings := st.warnings ++ ["Can\x27t set max_logs to 0, setting to 1 instead"] })
      else (val, st)
    match cleanup_logs_run valSt.1 valSt.2.fs [] with
    | .ok (fs1, msgs) =>
      .ok { valSt.2 with max_logs_setting := valSt.1, fs := fs1, infos := valSt.2.infos ++ msgs }
    | .error e => .error e

/-! ## Claims about the formatter -/

theorem eq_of_mem_of_nodup_keys {kvs : List (String × PyVal)}
    (hnd : (kvs.map Prod.fst).Nodup) {p q : String × PyVal}
    (hp : p ∈ kvs) (hq : q ∈ kvs) (hpq : p.1 = q.1) : p = q := by
  induction kvs with
  | nil => cases hp
  | cons a rest ih =>
    rw [List.map_cons, List.nodup_cons] at hnd
    rcases List.mem_cons.mp hp with hp1 | hp1 <;>
      rcases List.mem_cons.mp hq with hq1 | hq1
    · rw [hp1, hq1]
    · refine absurd ?_ hnd.1
      rw [← hp1, hpq]
      exact List.mem_map_of_mem Prod.fst hq1
    · refine absurd ?_ hnd.1
      rw [← hq1, ← hpq]
      exact List.mem_map_of_mem Prod.fst hp1
    · exact ih hnd.2 hp1 hq1

theorem serFilter_cons (a : String × PyVal) (l : List (String × PyVal)) :
    serFilter (a :: l) =
      (match a.2 with | .ser j => [(a.1, j)] | .unser => []) ++ serFilter l := by
  unfold serFilter
  rw [List.filterMap_cons]
  cases a.2 <;> simp

theorem serFilter_filter_ne (kvs : List (String × PyVal)) (k : String)
    (hall : ∀ p ∈ kvs, p.1 = k → p.2 = PyVal.unser) :
    serFilter (kvs.filter fun p => !(p.1 == k)) = serFilter kvs := by
  induction kvs with
  | nil => rfl
  | cons a rest ih =>
    have htail : serFilter (List.filter (fun p => !(p.1 == k)) rest) = serFilter rest :=
      ih fun p hp h => hall p (List.mem_cons_of_mem a hp) h
    rw [List.filter_cons]
    by_cases hk : a.1 = k
    · have ha : a.2 = PyVal.unser := hall a (List.mem_cons_self a rest) hk
      have hc : (!(a.1 == k)) = false := by simp [hk]
      rw [hc, if_neg (by simp), htail, serFilter_cons, ha]
      rfl
    · have hc : (!(a.1 == k)) = true := by simp [hk]
      rw [hc, if_pos rfl, serFilter_cons, serFilter_cons, htail]

/-- C9: a record lacking the optional caller-attribution attributes is
formatted (totally — `formatEntry` is a Lean function, so it cannot raise)
with the fixed defaults `caller_module = "unknown"`, `caller_func =
"unknown"` and `caller_lineno = 0`. -/
theorem format_absent_caller_defaults (r : PyRecord)
    (h1 : r.caller_module = none) (h2 : r.caller_func = none)
    (h3 : r.caller_lineno = none) :
    entryLookup (formatEntry r) "caller_module" = some (.str "unknown") ∧
    entryLookup (formatEntry r) "caller_func" = some (.str "unknown") ∧
    entryLookup (formatEntry r) "caller_lineno" = some (.num 0) := by
  unfold formatEntry entryLookup
  cases hx : r.extra_data with
  | none => simp [h1, h2, h3, List.lookup]
  | some kvs =>
    by_cases hk : (serFilter kvs).isEmpty <;>
      simp [hk, h1, h2, h3, List.lookup]

/-- Witness for C9 at a concrete record. -/
theorem format_absent_caller_defaults_witness :
    let r : PyRecord :=
      { created_iso := "2024-01-01T00:00:00", levelname := "INFO"
        message := "hello", caller_module := none, caller_func := none
        caller_lineno := none, name := "ArgusLogger", extra_data := none }
    entryLookup (formatEntry r) "caller_module" = some (.str "unknown") ∧
    entryLookup (formatEntry r) "caller_func" = some (.str "unknown") ∧
    entryLookup (formatEntry r) "caller_lineno" = some (.num 0) :=
  format_absent_caller_defaults _ rfl rfl rfl

/-- C8: when the value stored under key `k` of `extra_data` is not
JSON-serializable, formatting the record produces exactly the entry of the
same record with `k` absent (only the offending key is dropped), and the
`extra_data` key appears in the output object exactly when at least one
serializable entry remains. -/
theorem format_drops_unserializable (r : PyRecord)
    (kvs : List (String × PyVal)) (k : String)
    (he : r.extra_data = some kvs)
    (hnd : (kvs.map Prod.fst).Nodup)
    (hmem : ∃ p ∈ kvs, p.1 = k ∧ p.2.serOk = false) :
    formatEntry r = formatEntry { r with extra_data := some (kvs.filter fun p => !(p.1 == k)) } ∧
    (entryLookup (formatEntry r) "extra_data").isSome = !(serFilter kvs).isEmpty := by
  obtain ⟨q, hq, hqk, hqv⟩ := hmem
  have hqu : q.2 = PyVal.unser := by
    cases hv : q.2 with
    | ser j => rw [hv] at hqv; cases hqv
    | unser => rfl
  have hall : ∀ p ∈ kvs, p.1 = k → p.2 = PyVal.unser := by
    intro p hp hpk
    have : p = q := eq_of_mem_of_nodup_keys hnd hp hq (hpk.trans hqk.symm)
    rw [this, hqu]
  have hser := serFilter_filter_ne kvs k hall
  constructor
  · show formatEntry r = formatEntry _
    unfold formatEntry
    simp only [he, hser]
  · unfold formatEntry entryLookup
    rw [he]
    by_cases hk : (serFilter kvs).isEmpty <;> simp [hk, List.lookup]

/-- Witness for C8: a record whose `extra_data` holds a serializable value
under `"a"` and a non-serializable one under `"bad"`. -/
theorem format_drops_unserializable_witness :
    let kvs : List (String × PyVal) := [("a", .ser (.num 1)), ("bad", .unser)]
    let r : PyRecord :=
      { created_iso := "2024-01-01T00:00:00", levelname := "DEBUG"
        message := "m", caller_module := some "app.py", caller_func := some "f"
        caller_lineno := some 3, name := "ArgusLogger", extra_data := some kvs }
    formatEntry r = formatEntry { r with extra_data := some (kvs.filter fun p => !(p.1 == "bad")) } ∧
    (entryLookup (formatEntry r) "extra_data").isSome = !(serFilter kvs).isEmpty :=
  format_drops_unserializable _ _ "bad" rfl (by decide)
    ⟨("bad", .unser), by simp, rfl, rfl⟩

/-! ## Claims about the retention policy -/

/-- C3 (evaluation of the code at the failing input): `max_logs(0)` takes
the `val < 1` branch of the source, so it stores `-1` — disabling
retention — and emits no warning; the `val == 0` adjustment branch that
would store `1` and warn is unreachable. -/
theorem max_logs_zero_disables :
    max_logs 0 ⟨5, ["2024-01-01_00-00-00.log"], [], []⟩ =
      .ok ⟨-1, ["2024-01-01_00-00-00.log"], [], []⟩ := rfl

/-- C7: any `max_logs(v)` with `v < 1` (in particular any negative `v`)
disables retention: the call stores `-1`, touches no file and emits no
message, and a cleanup run under the stored `-1` deletes nothing no matter
what the directory holds. -/
theorem max_logs_negative_disables (v : Int) (st : RetentionState)
    (fs : List String) (hv : v < 1) :
    max_logs v st = .ok { st with max_logs_setting := -1 } ∧
    cleanup_logs_run (-1) fs [] = .ok (fs, []) := by
  constructor
  · unfold max_logs
    rw [if_pos hv]
  · unfold cleanup_logs_run
    rw [if_pos (by norm_num)]
    simp

/-- Witness for C7 at `v = -1` over a directory of seven rotated logs. -/
theorem max_logs_negative_disables_witness :
    (-1 : Int) < 1 ∧
    (max_logs (-1) ⟨4, ["a.log", "b.log"], [], []⟩ =
        .ok { max_logs_setting := -1, fs := ["a.log", "b.log"], infos := [], warnings := [] } ∧
      cleanup_logs_run (-1)
        ["a.log", "b.log", "c.log", "d.log", "e.log", "f.log", "g.log"] [] =
        .ok (["a.log", "b.log", "c.log", "d.log", "e.log", "f.log", "g.log"], [])) :=
  ⟨by decide, max_logs_negative_disables (-1) ⟨4, ["a.log", "b.log"], [], []⟩
    ["a.log", "b.log", "c.log", "d.log", "e.log", "f.log", "g.log"] (by decide)⟩

theorem unlinkAll_cons (fs : List String) (n : String) (rest infos : List String) :
    unlinkAll fs (n :: rest) infos =
      if n ∈ fs then unlinkAll (fs.erase n) rest (infos ++ ["Removed old log file: " ++ n])
      else .error ("FileNotFoundError: " ++ n) := by
  have h1 : unlinkAll fs (n :: rest) infos =
      match unlink fs n with
      | .ok fs1 => unlinkAll fs1 rest (infos ++ ["Removed old log file: " ++ n])
      | .error e => .error e := rfl
  rw [h1]
  unfold unlink
  by_cases hn : n ∈ fs <;> simp [hn]

theorem unlinkAll_error (names : List String) (fs infos : List String)
    (hx : ∃ x ∈ names, x ∉ fs) :
    ∃ e, unlinkAll fs names infos = .error e := by
  induction names generalizing fs infos with
  | nil => simp at hx
  | cons n rest ih =>
    obtain ⟨x, hxm, hxf⟩ := hx
    rw [unlinkAll_cons]
    by_cases hn : n ∈ fs
    · rw [if_pos hn]
      rcases List.mem_cons.mp hxm with hxn | hxr
      · exact absurd (hxn ▸ hn) hxf
      · exact ih _ _ ⟨x, hxr, fun hc => hxf (List.mem_of_mem_erase hc)⟩
    · rw [if_neg hn]
      exact ⟨_, rfl⟩

/-- C5 counterexample: with `max_logs = 1`, two rotated files listed, and
the excess file `2024-01-01_00-00-00.log` removed externally between the
listing and the deletion loop, the bare `Path.unlink()` raises
`FileNotFoundError` — the cleanup does not treat the vanished file as
already removed. -/
theorem cleanup_vanished_raises_cex :
    cleanup_logs_run 1 ["2024-01-01_00-00-00.log", "2024-01-02_00-00-00.log"]
        ["2024-01-01_00-00-00.log"] =
      .error ("FileNotFoundError: 2024-01-01_00-00-00.log") := by
  rfl

/-- C5 amended: if a file selected for deletion vanished between the
directory listing and the unlink, `_cleanup_logs` raises
`FileNotFoundError` (aborting the cleanup) instead of treating the
deletion as success. -/
theorem cleanup_vanished_raises (m : Int) (fs vanished : List String)
    (hm : 1 ≤ m) (hnd : fs.Nodup)
    (hx : ∃ x ∈ (sortedLogFiles fs).take (((sortedLogFiles fs).length : Int) - m).toNat,
          x ∈ vanished) :
    ∃ e, cleanup_logs_run m fs vanished = .error e := by
  obtain ⟨x, hxt, hxv⟩ := hx
  unfold cleanup_logs_run
  rw [if_neg (by omega : ¬ m < 1)]
  have hpos : ((sortedLogFiles fs).length : Int) - m > 0 := by
    by_contra hle
    have h0 : (((sortedLogFiles fs).length : Int) - m).toNat = 0 := by omega
    rw [h0] at hxt
    simp at hxt
  rw [if_pos hpos]
  refine unlinkAll_error _ _ _ ⟨x, hxt, ?_⟩
  intro hc
  exact ((hnd.mem_diff_iff).mp hc).2 hxv

/-- Witness for the amended C5. -/
theorem cleanup_vanished_raises_witness :
    (1 : Int) ≤ 1 ∧
    (["2024-01-01_00-00-00.log", "2024-01-02_00-00-00.log"] : List String).Nodup ∧
    (∃ x ∈ (sortedLogFiles ["2024-01-01_00-00-00.log", "2024-01-02_00-00-00.log"]).take
        (((sortedLogFiles ["2024-01-01_00-00-00.log", "2024-01-02_00-00-00.log"]).length : Int) - 1).toNat,
        x ∈ ["2024-01-01_00-00-00.log"]) ∧
    ∃ e, cleanup_logs_run 1 ["2024-01-01_00-00-00.log", "2024-01-02_00-00-00.log"]
        ["2024-01-01_00-00-00.log"] = .error e :=
  ⟨by decide, by decide, by decide,
    cleanup_vanished_raises 1 _ _ (by decide) (by decide) (by decide)⟩

theorem lexLe_total (as bs : List Char) : lexLe as bs = true ∨ lexLe bs as = true := by
  induction as generalizing bs with
  | nil => left; rfl
  | cons a at' ih =>
    cases bs with
    | nil => right; rfl
    | cons b bt =>
      rcases lt_trichotomy a b with h | h | h
      · left; simp [lexLe, h]
      · subst h
        rcases ih bt with h1 | h1
        · left; simp [lexLe, h1]
        · right; simp [lexLe, h1]
      · right; simp [lexLe, h]

theorem lexLe_trans (as bs cs : List Char)
    (h1 : lexLe as bs = true) (h2 : lexLe bs cs = true) : lexLe as cs = true := by
  induction as generalizing bs cs with
  | nil => rfl
  | cons a at' ih =>
    cases bs with
    | nil => simp [lexLe] at h1
    | cons b bt =>
      cases cs with
      | nil => simp [lexLe] at h2
      | cons c ct =>
        simp only [lexLe] at h1 h2 ⊢
        rcases lt_trichotomy a b with hab | hab | hab
        · rcases lt_trichotomy b c with hbc | hbc | hbc
          · simp [lt_trans hab hbc]
          · simp [hbc ▸ hab]
          · rw [if_neg (asymm hbc), if_neg (ne_of_gt hbc)] at h2
            cases h2
        · subst hab
          rcases lt_trichotomy a c with hac | hac | hac
          · simp [hac]
          · subst hac
            rw [if_neg (lt_irrefl a), if_pos rfl] at h1 h2 ⊢
            exact ih bt ct h1 h2
          · rw [if_neg (asymm hac), if_neg (ne_of_gt hac)] at h2
            cases h2
        · rw [if_neg (asymm hab), if_neg (ne_of_gt hab)] at h1
          cases h1

theorem unlinkAll_ok (names : List String) (fs infos : List String)
    (hnd : names.Nodup) (hsub : ∀ x ∈ names, x ∈ fs) :
    unlinkAll fs names infos =
      .ok (fs.diff names, infos ++ names.map fun n => "Removed old log file: " ++ n) := by
  induction names generalizing fs infos with
  | nil => simp [unlinkAll]
  | cons n rest ih =>
    rw [List.nodup_cons] at hnd
    rw [unlinkAll_cons, if_pos (hsub n (List.mem_cons_self n rest))]
    rw [ih _ _ hnd.2 fun x hx =>
      (List.mem_erase_of_ne fun hxn => hnd.1 (by rw [← hxn]; exact hx)).mpr
        (hsub x (List.mem_cons_of_mem n hx))]
    rw [List.diff_cons]
    simp

theorem filter_erase_of_pos (p : String → Bool) (l : List String) (a : String)
    (ha : p a = true) : (l.erase a).filter p = (l.filter p).erase a := by
  induction l with
  | nil => rfl
  | cons b t ih =>
    by_cases hb : b = a
    · subst hb
      simp [List.erase_cons_head, List.filter_cons, ha]
    · have e1 : (b :: t).erase a = b :: t.erase a := List.erase_cons_tail (by simp [hb])
      have e2 : (b :: List.filter p t).erase a = b :: (List.filter p t).erase a :=
        List.erase_cons_tail (by simp [hb])
      rw [e1, List.filter_cons, List.filter_cons]
      cases hpb : p b with
      | true => simp [e2, ih]
      | false => simp [ih]

theorem filter_diff (p : String → Bool) (d l : List String)
    (hd : ∀ x ∈ d, p x = true) : (l.diff d).filter p = (l.filter p).diff d := by
  induction d generalizing l with
  | nil => simp
  | cons a rest ih =>
    rw [List.diff_cons, List.diff_cons,
      ih (l.erase a) fun x hx => hd x (List.mem_cons_of_mem a hx),
      filter_erase_of_pos p l a (hd a (List.mem_cons_self a rest))]

theorem length_diff_of_nodup (d l : List String)
    (hl : l.Nodup) (hd : d.Nodup) (hsub : ∀ x ∈ d, x ∈ l) :
    (l.diff d).length = l.length - d.length := by
  induction d generalizing l with
  | nil => simp
  | cons a rest ih =>
    rw [List.nodup_cons] at hd
    have ha : a ∈ l := hsub a (List.mem_cons_self a rest)
    have h1 : (l.erase a).length = l.length - 1 := List.length_erase_of_mem ha
    have h2 : 1 ≤ l.length := List.length_pos_of_mem ha
    rw [List.diff_cons, ih (l.erase a) (hl.erase a) hd.2 fun x hx =>
      (List.mem_erase_of_ne fun hxa => hd.1 (by rw [← hxa]; exact hx)).mpr
        (hsub x (List.mem_cons_of_mem a hx))]
    rw [h1, List.length_cons]
    omega

/-- C6: with retained maximum `m ≥ 1` over a directory whose `.log` names
number `n > m`, one cleanup run deletes exactly the `n - m` lexically
first (oldest) `.log` names — the take of the ascending-sorted listing —
reporting each deletion, and keeps the `m` lexically greatest; an
immediate second run with the same setting and no new files deletes
nothing. -/
theorem cleanup_deletes_oldest (m : Int) (fs : List String)
    (hm : 1 ≤ m) (hnd : fs.Nodup) (hn : m.toNat < (logFiles fs).length) :
    List.Sorted strLe (sortedLogFiles fs) ∧
    cleanup_logs_run m fs [] =
      .ok (fs.diff (excessOf m fs),
           (excessOf m fs).map fun n => "Removed old log file: " ++ n) ∧
    (logFiles (fs.diff (excessOf m fs))).length = m.toNat ∧
    cleanup_logs_run m (fs.diff (excessOf m fs)) [] = .ok (fs.diff (excessOf m fs), []) := by
  haveI : IsTotal String strLe := ⟨fun a b => lexLe_total a.data b.data⟩
  haveI : IsTrans String strLe := ⟨fun a b c => lexLe_trans a.data b.data c.data⟩
  have hperm : (sortedLogFiles fs).Perm (logFiles fs) :=
    List.perm_insertionSort strLe (logFiles fs)
  have hlenS : (sortedLogFiles fs).length = (logFiles fs).length := hperm.length_eq
  have hndL : (logFiles fs).Nodup := hnd.filter _
  have hndS : (sortedLogFiles fs).Nodup := (hperm.nodup_iff).mpr hndL
  have hsorted : List.Sorted strLe (sortedLogFiles fs) :=
    List.sorted_insertionSort strLe (logFiles fs)
  have hkeep : ((sortedLogFiles fs).length : Int) - m > 0 := by rw [hlenS]; omega
  have hexnd : (excessOf m fs).Nodup := hndS.sublist (List.take_sublist _ _)
  have hexS : ∀ x ∈ excessOf m fs, x ∈ sortedLogFiles fs :=
    fun x hx => List.take_subset _ _ hx
  have hexL : ∀ x ∈ excessOf m fs, x ∈ logFiles fs :=
    fun x hx => hperm.mem_iff.mp (hexS x hx)
  have hexfs : ∀ x ∈ excessOf m fs, x ∈ fs :=
    fun x hx => List.mem_of_mem_filter (hexL x hx)
  have hexlog : ∀ x ∈ excessOf m fs, isLogName x = true :=
    fun x hx => List.of_mem_filter (hexL x hx)
  have hexlen : (excessOf m fs).length = (((sortedLogFiles fs).length : Int) - m).toNat := by
    unfold excessOf
    rw [List.length_take]
    omega
  have hfd : logFiles (fs.diff (excessOf m fs)) = (logFiles fs).diff (excessOf m fs) :=
    filter_diff isLogName (excessOf m fs) fs hexlog
  have hlen3 : (logFiles (fs.diff (excessOf m fs))).length = m.toNat := by
    rw [hfd, length_diff_of_nodup (excessOf m fs) (logFiles fs) hndL hexnd hexL, hexlen]
    omega
  refine ⟨hsorted, ?_, hlen3, ?_⟩
  · unfold cleanup_logs_run
    rw [if_neg (show ¬ m < 1 by omega), if_pos hkeep, List.diff_nil]
    rw [show List.take (((sortedLogFiles fs).length : Int) - m).toNat (sortedLogFiles fs) =
      excessOf m fs from rfl]
    rw [unlinkAll_ok _ _ _ hexnd hexfs]
    rfl
  · unfold cleanup_logs_run
    have hlen4 : (sortedLogFiles (fs.diff (excessOf m fs))).length = m.toNat :=
      (List.perm_insertionSort strLe _).length_eq.trans hlen3
    rw [if_neg (show ¬ m < 1 by omega),
      if_neg (show ¬ ((sortedLogFiles (fs.diff (excessOf m fs))).length : Int) - m > 0 by
        rw [hlen4]; omega),
      List.diff_nil]

/-- Witness for C6: the design document scenario — `maxLogs = 2`, five
rotated files named by ascending timestamp (plus one non-log file), first
run deletes the three oldest, second run deletes nothing. -/
theorem cleanup_deletes_oldest_witness :
    (1 : Int) ≤ 2 ∧
    (["2024-01-05_00-00-00.log", "2024-01-01_00-00-00.log", "2024-01-03_00-00-00.log",
      "notes.txt", "2024-01-02_00-00-00.log", "2024-01-04_00-00-00.log"] : List String).Nodup ∧
    (2 : Int).toNat < (logFiles ["2024-01-05_00-00-00.log", "2024-01-01_00-00-00.log",
      "2024-01-03_00-00-00.log", "notes.txt", "2024-01-02_00-00-00.log",
      "2024-01-04_00-00-00.log"]).length ∧
    (List.Sorted strLe (sortedLogFiles ["2024-01-05_00-00-00.log", "2024-01-01_00-00-00.log",
      "2024-01-03_00-00-00.log", "notes.txt", "2024-01-02_00-00-00.log",
      "2024-01-04_00-00-00.log"]) ∧
    cleanup_logs_run 2 ["2024-01-05_00-00-00.log", "2024-01-01_00-00-00.log",
      "2024-01-03_00-00-00.log", "notes.txt", "2024-01-02_00-00-00.log",
      "2024-01-04_00-00-00.log"] [] =
      .ok (["2024-01-05_00-00-00.log", "2024-01-01_00-00-00.log", "2024-01-03_00-00-00.log",
            "notes.txt", "2024-01-02_00-00-00.log", "2024-01-04_00-00-00.log"].diff
             (excessOf 2 ["2024-01-05_00-00-00.log", "2024-01-01_00-00-00.log",
               "2024-01-03_00-00-00.log", "notes.txt", "2024-01-02_00-00-00.log",
               "2024-01-04_00-00-00.log"]),
           (excessOf 2 ["2024-01-05_00-00-00.log", "2024-01-01_00-00-00.log",
             "2024-01-03_00-00-00.log", "notes.txt", "2024-01-02_00-00-00.log",
             "2024-01-04_00-00-00.log"]).map fun n => "Removed old log file: " ++ n) ∧
    (logFiles (["2024-01-05_00-00-00.log", "2024-01-01_00-00-00.log", "2024-01-03_00-00-00.log",
      "notes.txt", "2024-01-02_00-00-00.log", "2024-01-04_00-00-00.log"].diff
        (excessOf 2 ["2024-01-05_00-00-00.log", "2024-01-01_00-00-00.log",
          "2024-01-03_00-00-00.log", "notes.txt", "2024-01-02_00-00-00.log",
          "2024-01-04_00-00-00.log"]))).length = (2 : Int).toNat ∧
    cleanup_logs_run 2 (["2024-01-05_00-00-00.log", "2024-01-01_00-00-00.log",
      "2024-01-03_00-00-00.log", "notes.txt", "2024-01-02_00-00-00.log",
      "2024-01-04_00-00-00.log"].diff
        (excessOf 2 ["2024-01-05_00-00-00.log", "2024-01-01_00-00-00.log",
          "2024-01-03_00-00-00.log", "notes.txt", "2024-01-02_00-00-00.log",
          "2024-01-04_00-00-00.log"])) [] =
      .ok (["2024-01-05_00-00-00.log", "2024-01-01_00-00-00.log", "2024-01-03_00-00-00.log",
        "notes.txt", "2024-01-02_00-00-00.log", "2024-01-04_00-00-00.log"].diff
          (excessOf 2 ["2024-01-05_00-00-00.log", "2024-01-01_00-00-00.log",
            "2024-01-03_00-00-00.log", "notes.txt", "2024-01-02_00-00-00.log",
            "2024-01-04_00-00-00.log"]), [])) :=
  ⟨by decide, by decide, by decide,
    cleanup_deletes_oldest 2 _ (by decide) (by decide) (by decide)⟩

/-! ## Claims about the exit hook -/

theorem closeSink_closed (diag : Json) (st : SinkState) :
    (closeSink diag st).closed = true := by
  unfold closeSink
  by_cases hc : st.closed
  · rw [if_pos hc]; exact hc
  · rw [if_neg hc]

theorem closeSink_entries (diag : Json) (st : SinkState) :
    (closeSink diag st).state_entries = st.state_entries := by
  unfold closeSink
  by_cases hc : st.closed
  · rw [if_pos hc]
  · rw [if_neg hc]

theorem hookFold_spec (ps : List Probe) (acc : HookState) (h : SinkState)
    (hh : acc.handler = some h) :
    ps.foldl
      (fun acc p =>
        if p.logLimit > acc.logger_level then acc
        else
          match acc.handler with
          | some h => { acc with handler := some (appendStateEntry (entryString p) h) }
          | none => acc)
      acc =
    { acc with
        handler := some (withEntries h
          ((ps.filter fun p => decide (p.logLimit ≤ acc.logger_level)).map entryString)) } := by
  induction ps generalizing acc h with
  | nil =>
    simp only [List.foldl_nil, List.filter_nil, List.map_nil, withEntries, List.append_nil]
    rw [← hh]
  | cons p ps ih =>
    rw [List.foldl_cons]
    by_cases hp : p.logLimit > acc.logger_level
    · rw [if_pos hp]
      rw [ih acc h hh, List.filter_cons, if_neg (by simp; omega)]
    · rw [if_neg hp, hh]
      have ih2 := ih { acc with handler := some (appendStateEntry (entryString p) h) }
        (appendStateEntry (entryString p) h) rfl
      rw [ih2]
      rw [List.filter_cons, if_pos (by simp; omega)]
      simp [appendStateEntry, withEntries]

theorem run_hook_eq (diag : Json) (st : HookState) (h : SinkState)
    (hne : st.debug_functions ≠ []) (hh : st.handler = some h) :
    run_debug_functions diag st =
      { st with
          infos := st.infos ++ ["Running registered exit logging functions..."],
          handler := some (closeSink diag (withEntries h (passingEntries st))) } := by
  unfold run_debug_functions
  rw [if_neg (by simp [hne])]
  simp only []
  rw [hookFold_spec st.debug_functions
    { st with infos := st.infos ++ ["Running registered exit logging functions..."] } h hh]
  rfl

/-- C2 counterexample: with an open file sink and zero registered probes,
the exit hook returns at once — the sink is left open (`closed = false`),
its file not finalized — contradicting the claim that `close()` is invoked
even with zero probes. -/
theorem run_hook_no_probes_cex :
    run_debug_functions .null ⟨[], 40, some openSink, []⟩ = ⟨[], 40, some openSink, []⟩ ∧
    openSink.closed = false :=
  ⟨rfl, rfl⟩

/-- C2 amended: when at least one probe is registered and every registered
probe's `log_limit` is within the logger level, running the exit hook with
an open sink runs all the probes, appends one serialized state entry per
probe in arrival order, and then closes the sink (which is thereby
finalized); with zero registered probes the hook returns without touching
the sink. -/
theorem run_hook_closes (diag : Json) (st : HookState) (h : SinkState)
    (hne : st.debug_functions ≠ []) (hh : st.handler = some h)
    (hall : ∀ p ∈ st.debug_functions, p.logLimit ≤ st.logger_level) :
    run_debug_functions diag st =
      { st with
          infos := st.infos ++ ["Running registered exit logging functions..."],
          handler := some (closeSink diag
            (withEntries h (st.debug_functions.map entryString))) } ∧
    (closeSink diag (withEntries h (st.debug_functions.map entryString))).closed = true := by
  have hfilter : passingEntries st = st.debug_functions.map entryString := by
    unfold passingEntries
    rw [List.filter_eq_self.mpr fun p hp => decide_eq_true (hall p hp)]
  have heq := run_hook_eq diag st h hne hh
  rw [hfilter] at heq
  exact ⟨heq, closeSink_closed _ _⟩

/-- Witness for the amended C2 at a one-probe state. -/
theorem run_hook_closes_witness :
    ((([⟨"probe_a", "probe_a", 10, .map [("x", .num 1)]⟩] : List Probe)) ≠ []) ∧
    ((⟨[⟨"probe_a", "probe_a", 10, .map [("x", .num 1)]⟩], 40, some openSink, []⟩ :
        HookState).handler = some openSink) ∧
    (run_debug_functions .null
        ⟨[⟨"probe_a", "probe_a", 10, .map [("x", .num 1)]⟩], 40, some openSink, []⟩ =
      { (⟨[⟨"probe_a", "probe_a", 10, .map [("x", .num 1)]⟩], 40, some openSink, []⟩ :
          HookState) with
          infos := [] ++ ["Running registered exit logging functions..."],
          handler := some (closeSink .null (withEntries openSink
            (([⟨"probe_a", "probe_a", 10, .map [("x", .num 1)]⟩] : List Probe).map
              entryString))) } ∧
    (closeSink .null (withEntries openSink
      (([⟨"probe_a", "probe_a", 10, .map [("x", .num 1)]⟩] : List Probe).map
        entryString))).closed = true) :=
  ⟨by simp, rfl,
    run_hook_closes .null _ openSink (by simp) rfl
      (by intro p hp; rw [List.mem_singleton.mp hp]; decide)⟩

theorem dictUpdate_cons (base : List (String × Json)) (kv : String × Json)
    (upd : List (String × Json)) :
    dictUpdate base (kv :: upd) =
      dictUpdate
        (if base.any (fun p => p.1 == kv.1) then
          base.map fun p => if p.1 == kv.1 then (p.1, kv.2) else p
        else base ++ [kv]) upd := rfl

theorem dictUpdate_head (k : String) (v : Json) (rest upd : List (String × Json))
    (hno : ∀ kv ∈ upd, (kv.1 == k) = false) :
    ∃ rest', dictUpdate ((k, v) :: rest) upd = (k, v) :: rest' := by
  induction upd generalizing rest with
  | nil => exact ⟨rest, rfl⟩
  | cons kv upd ih =>
    have hk : (k == kv.1) = false :=
      beq_eq_false_iff_ne.mpr
        (Ne.symm (beq_eq_false_iff_ne.mp (hno kv (List.mem_cons_self kv upd))))
    have htail : ∀ kv2 ∈ upd, (kv2.1 == k) = false :=
      fun kv2 h2 => hno kv2 (List.mem_cons_of_mem kv h2)
    rw [dictUpdate_cons]
    by_cases hany : ((k, v) :: rest).any (fun p => p.1 == kv.1)
    · rw [if_pos hany, List.map_cons]
      have hfst : (if (k, v).1 == kv.1 then ((k, v).1, kv.2) else (k, v)) = (k, v) := by
        simp [hk]
      rw [hfst]
      exact ih _ htail
    · rw [if_neg hany, List.cons_append]
      exact ih _ htail

theorem entry_object_named (p : Probe) (hno : outputLacksObjectKey p = true) :
    entryObjectNamed p := by
  unfold entryObjectNamed stateEntryJson
  obtain ⟨rest', hr⟩ := dictUpdate_head "object" (.str (objectName p)) [] (outputDict p.output)
    (fun kv hkv => by
      have := List.all_eq_true.mp hno kv hkv
      simpa using this)
  rw [hr]
  unfold entryLookup
  simp [List.lookup]

/-- C4 counterexample: a probe registered with `log_limit = 50` while the
logger level is 40 is filtered out by the hook, so one registered probe
yields zero state entries — not exactly one. -/
theorem run_hook_skips_probe_cex :
    (⟨[⟨"probe_c", "probe_c", 50, .map [("w", .num 7)]⟩], 40, some openSink, []⟩ :
        HookState).debug_functions.length = 1 ∧
    ((run_debug_functions .null
        ⟨[⟨"probe_c", "probe_c", 50, .map [("w", .num 7)]⟩], 40, some openSink, []⟩).handler.map
      fun h => h.state_entries.length) = some 0 :=
  ⟨rfl, rfl⟩

/-- C4 amended: with a sink open, running the exit hook records exactly one
state entry per registered probe whose `log_limit` is at most the logger
level — probes above the level are skipped and yield no entry — in
registration order; every recorded entry whose probe does not override the
`object` key carries `object` bound to the probe's qualified-name head or
name. -/
theorem run_hook_entries (diag : Json) (st : HookState) (h : SinkState)
    (hne : st.debug_functions ≠ []) (hh : st.handler = some h) :
    (run_debug_functions diag st).handler =
      some (closeSink diag (withEntries h (passingEntries st))) ∧
    (closeSink diag (withEntries h (passingEntries st))).state_entries =
      h.state_entries ++ passingEntries st ∧
    (st.debug_functions.filter outputLacksObjectKey).Forall entryObjectNamed := by
  refine ⟨?_, ?_, ?_⟩
  · rw [run_hook_eq diag st h hne hh]
  · rw [closeSink_entries]
    rfl
  · rw [List.forall_iff_forall_mem]
    intro p hp
    exact entry_object_named p (List.of_mem_filter hp)

/-- Witness for the amended C4 with one passing and one skipped probe. -/
theorem run_hook_entries_witness :
    ((([⟨"probe_d", "SomeClass.probe_d", 10, .map [("count", .num 2)]⟩,
        ⟨"probe_e", "probe_e", 50, .str "late"⟩] : List Probe)) ≠ []) ∧
    ((⟨[⟨"probe_d", "SomeClass.probe_d", 10, .map [("count", .num 2)]⟩,
        ⟨"probe_e", "probe_e", 50, .str "late"⟩], 40, some openSink, []⟩ :
        HookState).handler = some openSink) ∧
    ((run_debug_functions .null
        ⟨[⟨"probe_d", "SomeClass.probe_d", 10, .map [("count", .num 2)]⟩,
          ⟨"probe_e", "probe_e", 50, .str "late"⟩], 40, some openSink, []⟩).handler =
      some (closeSink .null (withEntries openSink (passingEntries
        ⟨[⟨"probe_d", "SomeClass.probe_d", 10, .map [("count", .num 2)]⟩,
          ⟨"probe_e", "probe_e", 50, .str "late"⟩], 40, some openSink, []⟩))) ∧
    (closeSink .null (withEntries openSink (passingEntries
        ⟨[⟨"probe_d", "SomeClass.probe_d", 10, .map [("count", .num 2)]⟩,
          ⟨"probe_e", "probe_e", 50, .str "late"⟩], 40, some openSink, []⟩))).state_entries =
      openSink.state_entries ++ passingEntries
        ⟨[⟨"probe_d", "SomeClass.probe_d", 10, .map [("count", .num 2)]⟩,
          ⟨"probe_e", "probe_e", 50, .str "late"⟩], 40, some openSink, []⟩ ∧
    ((([⟨"probe_d", "SomeClass.probe_d", 10, .map [("count", .num 2)]⟩,
        ⟨"probe_e", "probe_e", 50, .str "late"⟩] : List Probe)).filter
      outputLacksObjectKey).Forall entryObjectNamed) :=
  ⟨by simp, rfl, run_hook_entries .null _ openSink (by simp) rfl⟩

/-- C10 counterexample: a registered probe returning the plain string
`"hello"` but carrying `log_limit = 45` above the logger level 40 is
skipped, so the hook records no state entry for it at all. -/
theorem run_hook_string_probe_cex :
    ((run_debug_functions .null
        ⟨[⟨"probe_f", "probe_f", 45, .str "hello"⟩], 40, some openSink, []⟩).handler.map
      fun h => h.state_entries) = some [] :=
  rfl

/-- C10 amended: for a registered probe within the logger level whose call
returns the plain string `s`, running the hook with an open sink records
for it the serialization of exactly the two-key mapping
`{"object": <probe name>, "message": s}` — the string is wrapped under
`message`, not rejected and not merged key-wise. -/
theorem run_hook_wraps_string (diag : Json) (st : HookState) (h : SinkState)
    (p : Probe) (s : String)
    (hh : st.handler = some h) (hmem : p ∈ st.debug_functions)
    (hs : p.output = .str s) (hpass : p.logLimit ≤ st.logger_level) :
    stateEntryJson p = .obj [("object", .str (objectName p)), ("message", .str s)] ∧
    (run_debug_functions diag st).handler =
      some (closeSink diag (withEntries h (passingEntries st))) ∧
    Json.render (.obj [("object", .str (objectName p)), ("message", .str s)]) ∈
      (closeSink diag (withEntries h (passingEntries st))).state_entries := by
  have h1 : stateEntryJson p = .obj [("object", .str (objectName p)), ("message", .str s)] := by
    unfold stateEntryJson
    rw [hs]
    rfl
  refine ⟨h1, ?_, ?_⟩
  · rw [run_hook_eq diag st h (List.ne_nil_of_mem hmem) hh]
  · rw [closeSink_entries]
    show _ ∈ h.state_entries ++ passingEntries st
    refine List.mem_append_right _ ?_
    rw [← h1]
    exact List.mem_map_of_mem entryString
      (List.mem_filter.mpr ⟨hmem, decide_eq_true hpass⟩)

/-- Witness for the amended C10 at a one-probe state whose probe returns a
plain string. -/
theorem run_hook_wraps_string_witness :
    ((⟨[⟨"probe_g", "Widget.probe_g", 10, .str "ok"⟩], 40, some openSink, []⟩ :
        HookState).handler = some openSink) ∧
    ((⟨"probe_g", "Widget.probe_g", 10, .str "ok"⟩ : Probe) ∈
      ([⟨"probe_g", "Widget.probe_g", 10, .str "ok"⟩] : List Probe)) ∧
    ((⟨"probe_g", "Widget.probe_g", 10, .str "ok"⟩ : Probe).output = .str "ok") ∧
    ((⟨"probe_g", "Widget.probe_g", 10, .str "ok"⟩ : Probe).logLimit ≤ 40) ∧
    (stateEntryJson ⟨"probe_g", "Widget.probe_g", 10, .str "ok"⟩ =
      .obj [("object", .str (objectName ⟨"probe_g", "Widget.probe_g", 10, .str "ok"⟩)),
            ("message", .str "ok")] ∧
    (run_debug_functions .null
        ⟨[⟨"probe_g", "Widget.probe_g", 10, .str "ok"⟩], 40, some openSink, []⟩).handler =
      some (closeSink .null (withEntries openSink (passingEntries
        ⟨[⟨"probe_g", "Widget.probe_g", 10, .str "ok"⟩], 40, some openSink, []⟩))) ∧
    Json.render (.obj [("object", .str (objectName ⟨"probe_g", "Widget.probe_g", 10, .str "ok"⟩)),
        ("message", .str "ok")]) ∈
      (closeSink .null (withEntries openSink (passingEntries
        ⟨[⟨"probe_g", "Widget.probe_g", 10, .str "ok"⟩], 40, some openSink, []⟩))).state_entries) :=
  ⟨rfl, List.mem_singleton.mpr rfl, rfl, by decide,
    run_hook_wraps_string .null _ openSink _ "ok" rfl (List.mem_singleton.mpr rfl) rfl
      (by decide)⟩

/-! ## Claims about the streaming sink (spec-modelled) -/

theorem renderSeq_eq_joinComma (f : Bool) (xs : List Json) :
    Json.renderSeq f xs = joinComma f (xs.map Json.render) := by
  induction xs generalizing f with
  | nil => rfl
  | cons x xs ih =>
    rw [List.map_cons]
    show (cond f "" ", ") ++ (x.render ++ Json.renderSeq false xs) =
      (cond f "" ", ") ++ (x.render ++ joinComma false (xs.map Json.render))
    rw [ih false]

theorem emitAll_content (rs : List PyRecord) (co : String) (lc : Nat) (se : List String) :
    emitAll rs ⟨co, lc, se, false⟩ =
      ⟨co ++ joinComma (lc == 0) (rs.map formatRecord), lc + rs.length, se, false⟩ := by
  induction rs generalizing co lc with
  | nil => simp [emitAll, joinComma]
  | cons r rs ih =>
    show emitAll rs (emitRecord r ⟨co, lc, se, false⟩) = _
    rw [show emitRecord r ⟨co, lc, se, false⟩ =
      ⟨co ++ ((cond (lc == 0) "" ", ") ++ formatRecord r), lc + 1, se, false⟩ from rfl]
    rw [ih]
    rw [show ((lc + 1 : Nat) == 0) = false from beq_eq_false_iff_ne.mpr (Nat.succ_ne_zero lc)]
    simp only [List.map_cons, joinComma, List.length_cons, SinkState.mk.injEq,
      String.append_assoc]
    exact ⟨trivial, by omega, trivial, trivial⟩

theorem appendStates_spec (es : List String) (st : SinkState) :
    appendStates es st = { st with state_entries := st.state_entries ++ es } := by
  induction es generalizing st with
  | nil =>
    obtain ⟨co, lc, se, cl⟩ := st
    simp [appendStates]
  | cons e es ih =>
    show appendStates es (appendStateEntry e st) = _
    rw [ih]
    obtain ⟨co, lc, se, cl⟩ := st
    simp [appendStateEntry]

/-- C1 (the sink is spec-modelled, `handlers.py` being absent from the
sources): a session that appends `N` records, registers its serialized
state entries, and closes, yields a file whose content is exactly the
`json.dumps` rendering of the JSON document whose `logs` array holds the
`N` formatted records in arrival order and whose `state` array holds one
element per appended state entry in arrival order — in particular the
finalized file parses as JSON with `logs` of length `N`. -/
theorem sink_session_spec (rs : List PyRecord) (svs : List Json) (diag : Json) :
    (closeSink diag (appendStates (svs.map Json.render) (emitAll rs openSink))).content =
      Json.render (finalDoc (rs.map formatEntry) svs diag) ∧
    (rs.map formatEntry).length = rs.length ∧
    (svs.map Json.render).length = svs.length := by
  refine ⟨?_, by simp, by simp⟩
  have h1 : appendStates (svs.map Json.render) (emitAll rs openSink) =
      ⟨("\x7b" ++ ("\"logs\": " ++ "[")) ++ joinComma true (rs.map formatRecord),
        0 + rs.length, [] ++ svs.map Json.render, false⟩ := by
    rw [show emitAll rs openSink =
      emitAll rs ⟨"\x7b" ++ ("\"logs\": " ++ "["), 0, [], false⟩ from rfl]
    rw [emitAll_content, appendStates_spec]
    rfl
  rw [h1]
  rw [show (closeSink diag
      ⟨("\x7b" ++ ("\"logs\": " ++ "[")) ++ joinComma true (rs.map formatRecord),
        0 + rs.length, [] ++ svs.map Json.render, false⟩).content =
      (("\x7b" ++ ("\"logs\": " ++ "[")) ++ joinComma true (rs.map formatRecord)) ++
        ("]" ++ (", " ++ ("\"state\": " ++ ("[" ++ (joinComma true ([] ++ svs.map Json.render) ++
          ("]" ++ (", " ++ ("\"diagnostics_state\": " ++ (Json.render diag ++ "\x7d"))))))))) from
    rfl]
  rw [List.nil_append]
  unfold finalDoc
  rw [show Json.render (Json.obj [("logs", Json.arr (rs.map formatEntry)),
      ("state", Json.arr svs), ("diagnostics_state", diag)]) =
    "\x7b" ++ (("" ++ ("\"" ++ (escape "logs" ++ ("\": " ++
      (("[" ++ (Json.renderSeq true (rs.map formatEntry) ++ "]")) ++
        (", " ++ ("\"" ++ (escape "state" ++ ("\": " ++
          (("[" ++ (Json.renderSeq true svs ++ "]")) ++
            (", " ++ ("\"" ++ (escape "diagnostics_state" ++ ("\": " ++
              (Json.render diag ++ ""))))))))))))))) ++ "\x7d") from rfl]
  rw [renderSeq_eq_joinComma true (rs.map formatEntry), renderSeq_eq_joinComma true svs]
  rw [List.map_map]
  rw [show (rs.map (Json.render ∘ formatEntry)) = rs.map formatRecord from rfl]
  rw [show escape "logs" = "logs" from rfl, show escape "state" = "state" from rfl,
    show escape "diagnostics_state" = "diagnostics_state" from rfl]
  rw [String.empty_append, String.append_empty]
  rw [show ∀ X : String, "\"" ++ ("logs" ++ ("\": " ++ X)) = "\"logs\": " ++ X from
    fun X => by rw [← String.append_assoc, ← String.append_assoc]; rfl]
  rw [show ∀ X : String, "\"" ++ ("state" ++ ("\": " ++ X)) = "\"state\": " ++ X from
    fun X => by rw [← String.append_assoc, ← String.append_assoc]; rfl]
  rw [show ∀ X : String,
      "\"" ++ ("diagnostics_state" ++ ("\": " ++ X)) = "\"diagnostics_state\": " ++ X from
    fun X => by rw [← String.append_assoc, ← String.append_assoc]; rfl]
  simp only [String.append_assoc]

end Argus
